import Mathlib

/-!
Verification development for the motion-triggered capture pipeline
(`services/capture/src/capture_service.py`,
`services/capture/src/host_capture_service.py`) and its downstream queue
consumer (`services/detection/src/detection_service.py`).

Modelling conventions:
* Frames are two-dimensional grids of pixel values.  Pixel values and wall
  clock times are rationals (the Python code computes with floats; none of
  the verified properties depends on rounding).  Colour frames are handled
  by the source through a fixed grayscale reduction; the embedding works on
  the grayscale grid, on which every verified formula of the source
  (`std`, `mean`, Laplacian variance) is computed.
* numpy's `std(x) < eps` test is embedded at the level of the variance
  (`var(x) < eps^2`), which is equivalent since both sides are nonnegative.
* The main capture loop is embedded as a step function over an explicit
  state, folded over a list of per-iteration environment inputs (result of
  the camera read, the motion detector's verdict, the wall clock, and the
  outcome of any `open_camera` attempt made in that iteration).
-/

/-- A frame: rows of pixel values (the grayscale grid; `shape = (height, width)`). -/
structure Frame where
  rows : List (List ℚ)
deriving DecidableEq

/-- `frame.shape[0]` -/
def frameHeight (fr : Frame) : Nat := fr.rows.length

/-- `frame.shape[1]` -/
def frameWidth (fr : Frame) : Nat := (fr.rows.headD []).length

/-- All pixels of the frame in row-major order. -/
def framePixels (fr : Frame) : List ℚ := fr.rows.flatten

/-- Population mean of a list of values (`numpy.mean`); 0 on the empty list. -/
def listMean (xs : List ℚ) : ℚ := xs.sum / xs.length

/-- Population variance of a list of values (the square of `numpy.std`). -/
def listVariance (xs : List ℚ) : ℚ :=
  (xs.map (fun x => (x - listMean xs) * (x - listMean xs))).sum / xs.length

/-- Variance of the frame's pixel values (the square of `frame.std()`). -/
def pixelVariance (fr : Frame) : ℚ := listVariance (framePixels fr)

/-- `CaptureService.is_valid_frame` / `HostCaptureService.is_valid_frame`:
rejects absent frames, frames smaller than 10x10, and frames whose pixel
standard deviation is below `0.001` (embedded as `variance < 0.001^2`). -/
def is_valid_frame (f : Option Frame) : Bool :=
  match f with
  | none => false
  | some fr =>
    if frameWidth fr < 10 ∨ frameHeight fr < 10 then false
    else if pixelVariance fr < 1 / 1000000 then false
    else true

/-- `CaptureService.measure_brightness`: mean grayscale value scaled to `[0,1]`;
`0.0` for an absent frame. -/
def measure_brightness (f : Option Frame) : ℚ :=
  match f with
  | none => 0
  | some fr => listMean (framePixels fr) / 255

/-- The brightness bookkeeping the capture loop performs on every valid frame
(`run`, "Measure and update brightness for low light detection"): it stores
the measured brightness and sets the low-light flag iff brightness `< 0.2`.
The status/health endpoints report exactly this stored pair. -/
def brightnessUpdate (fr : Frame) : ℚ × Bool :=
  let b := measure_brightness (some fr)
  (b, decide (b < 1 / 5))

/-- A concrete 2x2 frame with two distinct pixel values. -/
def smallContrastFrame : Frame := ⟨[[0, 100], [100, 0]]⟩

/-- A concrete 10x10 frame: all pixels 0 except one pixel of value 255. -/
def spikeFrame : Frame :=
  ⟨[[0,0,0,0,0,0,0,0,0,0],
    [0,0,0,0,0,0,0,0,0,0],
    [0,0,0,0,0,0,0,0,0,0],
    [0,0,0,0,0,0,0,0,0,0],
    [0,0,0,0,0,255,0,0,0,0],
    [0,0,0,0,0,0,0,0,0,0],
    [0,0,0,0,0,0,0,0,0,0],
    [0,0,0,0,0,0,0,0,0,0],
    [0,0,0,0,0,0,0,0,0,0],
    [0,0,0,0,0,0,0,0,0,0]]⟩

/-- Neighbour index `i - 1` under the default OpenCV border mode
(`BORDER_REFLECT_101`, for an in-range centre `i`): `-1` reflects to `1`. -/
def reflectDown (i : Nat) : Nat := if i = 0 then 1 else i - 1

/-- Neighbour index `i + 1` under `BORDER_REFLECT_101` (for an in-range
centre `i` of an axis of length `n`): `n` reflects to `n - 2`. -/
def reflectUp (n i : Nat) : Nat := if i + 1 = n then n - 2 else i + 1

/-- Pixel access with row-major indexing (out-of-range reads as 0; all uses
stay in range via the reflection helpers). -/
def pixAt (fr : Frame) (y x : Nat) : ℚ := (fr.rows.getD y []).getD x 0

/-- One entry of `cv2.Laplacian(gray, CV_64F)` with the 3x3 aperture-1 kernel
`[[0,1,0],[1,-4,1],[0,1,0]]` and reflected borders. -/
def lapAt (fr : Frame) (h w y x : Nat) : ℚ :=
  pixAt fr (reflectDown y) x + pixAt fr (reflectUp h y) x +
    pixAt fr y (reflectDown x) + pixAt fr y (reflectUp w x) -
    4 * pixAt fr y x

/-- All Laplacian response values of a frame, row-major. -/
def laplacianValues (fr : Frame) : List ℚ :=
  ((List.range (frameHeight fr)).map (fun y =>
    (List.range (frameWidth fr)).map (fun x =>
      lapAt fr (frameHeight fr) (frameWidth fr) y x))).flatten

/-- `CaptureService.measure_sharpness`: variance of the Laplacian response
(`laplacian.var()`); `0.0` for an absent frame. -/
def measure_sharpness (f : Option Frame) : ℚ :=
  match f with
  | none => 0
  | some fr => listVariance (laplacianValues fr)

/-- The sampling loop of `CaptureService.capture_best_frame`: each element of
`reads` is the outcome of one `self.cap.read()` (`none` for a failed read);
a frame is considered only if it is valid, and the running best is replaced
exactly when the new frame's sharpness strictly exceeds the best sharpness
so far (initially `0.0` with no best frame). -/
def bestLoop : List (Option Frame) → Option Frame → ℚ → Option Frame
  | [], best, _ => best
  | r :: rs, best, bestSharp =>
    match r with
    | none => bestLoop rs best bestSharp
    | some f =>
      if is_valid_frame (some f) then
        if bestSharp < measure_sharpness (some f) then
          bestLoop rs (some f) (measure_sharpness (some f))
        else bestLoop rs best bestSharp
      else bestLoop rs best bestSharp

/-- `CaptureService.capture_best_frame` restricted to its sampling loop
(buffer flushing and inter-sample sleeps do not affect the selection). -/
def capture_best_frame (reads : List (Option Frame)) : Option Frame :=
  bestLoop reads none 0

/-- The sampled frames that pass the read-and-validity check
(`ret and frame is not None and self.is_valid_frame(frame)`). -/
def burstCandidates (reads : List (Option Frame)) : List Frame :=
  (reads.filterMap id).filter (fun f => is_valid_frame (some f))

/-- A concrete 10x10 constant frame (a solid-colour camera glitch). -/
def uniformFrame : Frame :=
  ⟨List.replicate 10 (List.replicate 10 (7 : ℚ))⟩

/-- Configuration of the capture loop, read once before the loop starts
(`CaptureService.run` / `HostCaptureService.run`): `warmup_frames`
(`int(fps * 5)`), `motion_cooldown`, `motion_delay` and
`max_consecutive_errors`. -/
structure LoopCfg where
  warmupFrames : Nat
  cooldown : ℚ
  motionDelay : ℚ
  maxConsecutiveErrors : Nat

/-- Outcome of the camera read in one loop iteration: a failed read
(`not ret or frame is None`), a readable but invalid frame
(`is_valid_frame` false), or a valid frame together with the motion
detector's verdict for it and the iteration's wall clock `current_time`. -/
inductive ReadRes where
  | fail
  | invalid
  | valid (motion : Bool) (t : ℚ)

/-- The environment data one loop iteration can consume: the outcome of an
`open_camera()` attempted at the top of the loop (camera found closed), the
outcome of an `open_camera()` attempted in the error-reconnect branch, and
the read result. -/
structure LoopIn where
  openOk : Bool
  reOpenOk : Bool
  res : ReadRes

/-- The mutable state of the capture loop: whether the camera is open, the
loop-local counters `frame_count`, the service counters `total_frames`,
`frame_errors`, `corrupted_frames`, `consecutive_errors`, and the loop-local
`last_capture_time` and `motion_detected_time`. -/
structure LoopState where
  camOpen : Bool
  frameCount : Nat
  totalFrames : Nat
  frameErrors : Nat
  corruptedFrames : Nat
  consecutiveErrors : Nat
  lastCaptureTime : ℚ
  motionDetectedTime : Option ℚ

/-- Result of one loop iteration: the new state, the capture event published
in this iteration (identified by its timestamp) if any, and whether the
error-branch reconnect (`close_camera` followed by `open_camera`) fired. -/
structure StepOut where
  st : LoopState
  event : Option ℚ
  reconnected : Bool

/-- Top of the loop body: `if not self.cap or not self.cap.isOpened()`,
attempt `open_camera()`; on failure the iteration is skipped (`continue`),
on success `open_camera` resets `consecutive_errors` to 0. -/
def openAtTop (st : LoopState) (openOk : Bool) : Option LoopState :=
  if st.camOpen then some st
  else if openOk then some { st with camOpen := true, consecutiveErrors := 0 }
  else none

/-- Counter updates of the failed-read branch: `frame_count`, `total_frames`,
`frame_errors` and `consecutive_errors` all increment. -/
def countedFail (st : LoopState) : LoopState :=
  { st with frameCount := st.frameCount + 1, totalFrames := st.totalFrames + 1,
            frameErrors := st.frameErrors + 1,
            consecutiveErrors := st.consecutiveErrors + 1 }

/-- Counter updates of the invalid-frame branch: `frame_count`,
`total_frames`, `corrupted_frames` and `consecutive_errors` increment. -/
def countedInvalid (st : LoopState) : LoopState :=
  { st with frameCount := st.frameCount + 1, totalFrames := st.totalFrames + 1,
            corruptedFrames := st.corruptedFrames + 1,
            consecutiveErrors := st.consecutiveErrors + 1 }

/-- The reconnect check shared by the failed-read and invalid-frame branches:
when `consecutive_errors >= max_consecutive_errors` the camera is closed and
reopened; a successful reopen resets `consecutive_errors` to 0, a failed
reopen leaves the camera closed (with the counter unchanged). The returned
flag records whether the reconnect fired. -/
def errorRecon (cfg : LoopCfg) (st : LoopState) (reOpenOk : Bool) :
    LoopState × Bool :=
  if cfg.maxConsecutiveErrors ≤ st.consecutiveErrors then
    (if reOpenOk then { st with camOpen := true, consecutiveErrors := 0 }
     else { st with camOpen := false }, true)
  else (st, false)

/-- The valid-frame part of the loop body: reset `consecutive_errors`,
force `motion_detected` to false while `frame_count < warmup_frames`
(`frame_count` checked after its increment), set `motion_detected_time` on
the first motion frame and clear it on a frame without motion, then capture
when motion is detected, `current_time - last_capture_time >= cooldown`,
`motion_detected_time` is set, and
`current_time - motion_detected_time >= motion_delay`; a capture publishes
the event, sets `last_capture_time := current_time` and clears
`motion_detected_time`. -/
def validStep (cfg : LoopCfg) (st : LoopState) (m : Bool) (t : ℚ) :
    LoopState × Option ℚ :=
  let st1 : LoopState :=
    { st with frameCount := st.frameCount + 1, totalFrames := st.totalFrames + 1,
              consecutiveErrors := 0 }
  let motionDetected : Bool := m && decide (cfg.warmupFrames ≤ st1.frameCount)
  let mdt : Option ℚ :=
    if motionDetected then some (st.motionDetectedTime.getD t) else none
  let shouldCapture : Bool := motionDetected
      && decide (st.lastCaptureTime + cfg.cooldown ≤ t)
      && mdt.isSome
      && decide (mdt.getD t + cfg.motionDelay ≤ t)
  if shouldCapture then
    ({ st1 with lastCaptureTime := t, motionDetectedTime := none }, some t)
  else
    ({ st1 with motionDetectedTime := mdt }, none)

/-- One full iteration of the capture loop body
(`CaptureService.run` / `HostCaptureService.run`).  The published event is
identified with the iteration's `current_time`, the value also assigned to
`last_capture_time` (the code stamps the artifact moments later inside the
same iteration). -/
def loopStep (cfg : LoopCfg) (st : LoopState) (inp : LoopIn) : StepOut :=
  match openAtTop st inp.openOk with
  | none => { st := st, event := none, reconnected := false }
  | some st1 =>
    match inp.res with
    | ReadRes.fail =>
      let p := errorRecon cfg (countedFail st1) inp.reOpenOk
      { st := p.1, event := none, reconnected := p.2 }
    | ReadRes.invalid =>
      let p := errorRecon cfg (countedInvalid st1) inp.reOpenOk
      { st := p.1, event := none, reconnected := p.2 }
    | ReadRes.valid m t =>
      let p := validStep cfg st1 m t
      { st := p.1, event := p.2, reconnected := false }

/-- The capture loop folded over a list of iteration inputs, collecting the
published capture events together with the index of the iteration that
published them. -/
def runLoopIdx (cfg : LoopCfg) : Nat → LoopState → List LoopIn → List (Nat × ℚ)
  | _, _, [] => []
  | k, st, inp :: ins =>
    let o := loopStep cfg st inp
    match o.event with
    | some t => (k, t) :: runLoopIdx cfg (k + 1) o.st ins
    | none => runLoopIdx cfg (k + 1) o.st ins

/-- The state just before the loop starts: `camOpen` records whether the
initial `open_camera()` succeeded, all counters are zero,
`last_capture_time` is initialized to the current time (`time.time()`, not
0), and `motion_detected_time` is `None`. -/
def initState (camOpened : Bool) (t0 : ℚ) : LoopState :=
  { camOpen := camOpened, frameCount := 0, totalFrames := 0, frameErrors := 0,
    corruptedFrames := 0, consecutiveErrors := 0, lastCaptureTime := t0,
    motionDetectedTime := none }

/-- The metadata dict built by `HostCaptureService.run` for one capture:
timestamp string, the constant motion score `1.0`, the source string, and —
when a clip was saved — the clip's `video_path`. -/
structure CaptureMeta where
  timestamp : String
  motionScore : ℚ
  source : String
  videoPath : Option String

/-- The work-queue message envelope of the spec:
`{image_path, timestamp, motion_score, source, video_path?}`. -/
structure QueueMessage where
  imagePath : String
  timestamp : String
  motionScore : ℚ
  source : String
  videoPath : Option String

/-- `HostCaptureService.publish_to_redis`: the pushed message is built from
exactly the four keys `image_path`, `timestamp`, `motion_score`, `source`;
the metadata's `video_path` is not copied into it (the message record keeps
an optional `videoPath` field so the spec's envelope can be stated). -/
def publish_to_redis (imagePath : String) (meta : CaptureMeta) : QueueMessage :=
  { imagePath := imagePath, timestamp := meta.timestamp,
    motionScore := meta.motionScore, source := meta.source, videoPath := none }

/-- The metadata construction in `HostCaptureService.run` (`motion_score`
is the fixed sentinel `1.0`; `video_path` added when `save_video_clip`
returned a path). -/
def captureMetadata (ts source : String) (videoPath : Option String) : CaptureMeta :=
  { timestamp := ts, motionScore := 1, source := source, videoPath := videoPath }

/-- `save_image`: `cv2.imwrite`'s boolean result is discarded; the relative
path derived from the timestamp is returned whether or not the write
succeeded. -/
def save_image (imwriteOk : Bool) (path : String) : String := path

/-- The capture-and-publish block of `HostCaptureService.run`: save the
image (write result unchecked), optionally save the clip, build the
metadata, publish.  A message is always pushed; nothing aborts on an image
or clip write failure. -/
def captureAndPublish (imwriteOk : Bool) (clipPath : Option String)
    (imagePath ts source : String) : Option QueueMessage :=
  let ip := save_image imwriteOk imagePath
  let meta := captureMetadata ts source clipPath
  some (publish_to_redis ip meta)

/-- One raw prediction of the YOLO model: class id and confidence. -/
structure YoloPred where
  cls : Int
  conf : ℚ

/-- The class-id / threshold configuration of `DetectionService`
(`squirrelId < 0` disables squirrel detection). -/
structure DetCfg where
  birdId : Int
  humanId : Int
  squirrelId : Int
  birdTh : ℚ
  humanTh : ℚ
  squirrelTh : ℚ

/-- The three target classes of the detection stage. -/
inductive TargetClass where
  | bird
  | human
  | squirrel
deriving DecidableEq

/-- Per-box threshold selection and flag assignment of
`DetectionService.detect_objects`: a box picks its threshold by the first
matching branch (bird, then human, then squirrel when configured with a
nonnegative id); boxes of other classes, or below their class threshold,
set no flag. -/
def predTarget (cfg : DetCfg) (p : YoloPred) : Option TargetClass :=
  if p.cls = cfg.birdId then
    (if cfg.birdTh ≤ p.conf then some TargetClass.bird else none)
  else if p.cls = cfg.humanId then
    (if cfg.humanTh ≤ p.conf then some TargetClass.human else none)
  else if 0 ≤ cfg.squirrelId ∧ p.cls = cfg.squirrelId then
    (if cfg.squirrelTh ≤ p.conf then some TargetClass.squirrel else none)
  else none

/-- `is_bird` after the prediction loop of `detect_objects`. -/
def isBird (cfg : DetCfg) (preds : List YoloPred) : Bool :=
  preds.any (fun p => decide (predTarget cfg p = some TargetClass.bird))

/-- `is_human` after the prediction loop of `detect_objects`. -/
def isHuman (cfg : DetCfg) (preds : List YoloPred) : Bool :=
  preds.any (fun p => decide (predTarget cfg p = some TargetClass.human))

/-- `is_squirrel` after the prediction loop of `detect_objects`. -/
def isSquirrel (cfg : DetCfg) (preds : List YoloPred) : Bool :=
  preds.any (fun p => decide (predTarget cfg p = some TargetClass.squirrel))

/-- The category computation of `detect_objects`:
`present.count(True)` is 0 for `'none'`, 1 for the single class, else
`'both'`. -/
def detCategory (cfg : DetCfg) (preds : List YoloPred) : String :=
  let b := isBird cfg preds
  let h := isHuman cfg preds
  let s := isSquirrel cfg preds
  let cnt : Nat := (cond b 1 0) + (cond h 1 0) + (cond s 1 0)
  if cnt = 0 then "none"
  else if cnt = 1 then (if b then "bird" else if h then "human" else "squirrel")
  else "both"

/-- The part of `detect_objects`'s result the consumer's branching uses. -/
structure DetResult where
  bird : Bool
  human : Bool
  squirrel : Bool
  category : String

/-- `DetectionService.detect_objects`: `None` when the image file does not
exist or inference raises an exception; otherwise the flags and category
computed from the model's raw predictions. -/
def detect_objects (cfg : DetCfg) (imageExists : Bool)
    (inference : Option (List YoloPred)) : Option DetResult :=
  if imageExists = false then none
  else
    match inference with
    | none => none
    | some preds =>
      some { bird := isBird cfg preds, human := isHuman cfg preds,
             squirrel := isSquirrel cfg preds, category := detCategory cfg preds }

/-- The externally visible action `DetectionService.process_image` takes
for one consumed message. -/
inductive DetAction where
  | publishDetection (r : DetResult)
  | deleteImage
  | noAction

/-- `DetectionService.process_image`: on a detection result, re-publish an
enriched record when the category is not `'none'`, delete the image when it
is; when `detect_objects` returned `None` (missing image or inference
error), do neither. -/
def process_image (cfg : DetCfg) (imageExists : Bool)
    (inference : Option (List YoloPred)) : DetAction :=
  match detect_objects cfg imageExists inference with
  | none => DetAction.noAction
  | some r =>
    if r.category ≠ "none" then DetAction.publishDetection r
    else DetAction.deleteImage

/-- Appending one frame to the clip buffer in `HostCaptureService.run`:
`self.frame_buffer.append((time.time(), frame.copy()))` followed by
`pop(0)` when the length exceeds `max_buffer_frames`. -/
def bufferAppend (maxN : Nat) (buf : List (ℚ × Frame)) (e : ℚ × Frame) :
    List (ℚ × Frame) :=
  let b := buf ++ [e]
  if maxN < b.length then b.tail else b

/-- `max_buffer_frames = int(video_clip_duration * video_clip_fps) + 10`. -/
def maxBufferFrames (dur fps : ℚ) : Nat := (dur * fps).floor.toNat + 10

/-- The fallback count `int(video_clip_fps * video_clip_duration)` used by
`save_video_clip` (`int()` truncation; the configured values are
nonnegative). -/
def clipFallbackN (fps dur : ℚ) : Nat := (fps * dur).floor.toNat

/-- The frame-selection part of `HostCaptureService.save_video_clip`:
`None` for an empty buffer; otherwise the entries with
`t >= now - video_clip_duration`, falling back to the Python slice
`frame_buffer[-int(fps * duration):]` when that filter is empty (the slice
is the whole list when the count is 0), and `None` when nothing remains. -/
def selectClipFrames (dur : ℚ) (fallbackN : Nat) (now : ℚ)
    (buf : List (ℚ × Frame)) : Option (List (ℚ × Frame)) :=
  if buf = [] then none
  else
    let cutoff := now - dur
    let frames := buf.filter (fun e => decide (cutoff ≤ e.1))
    let frames2 := if frames = [] then
        (if fallbackN = 0 then buf else buf.drop (buf.length - fallbackN))
      else frames
    if frames2 = [] then none else some frames2

theorem listMean_const (xs : List ℚ) (c : ℚ) (h : ∀ x ∈ xs, x = c) (hne : xs ≠ []) :
    listMean xs = c := by
  have hsum : xs.sum = xs.length • c := List.sum_eq_card_nsmul xs c h
  have hn : (xs.length : ℚ) ≠ 0 := by
    have := List.length_pos.mpr hne
    positivity
  rw [listMean, hsum, nsmul_eq_mul]
  field_simp

theorem listVariance_const (xs : List ℚ) (c : ℚ) (h : ∀ x ∈ xs, x = c) (hne : xs ≠ []) :
    listVariance xs = 0 := by
  have hm := listMean_const xs c h hne
  rw [listVariance, hm]
  have hz : (xs.map (fun x => (x - c) * (x - c))).sum = 0 := by
    apply List.sum_eq_zero
    intro y hy
    rcases List.mem_map.mp hy with ⟨x, hx, rfl⟩
    rw [h x hx]
    ring
  rw [hz, zero_div]

theorem listVariance_pos (xs : List ℚ) (a b : ℚ) (ha : a ∈ xs) (hb : b ∈ xs)
    (hab : a ≠ b) : 0 < listVariance xs := by
  have hn : (0 : ℚ) < xs.length := by
    exact_mod_cast List.length_pos.mpr (List.ne_nil_of_mem ha)
  have hnn : ∀ y ∈ xs.map (fun x => (x - listMean xs) * (x - listMean xs)), 0 ≤ y := by
    intro y hy
    rcases List.mem_map.mp hy with ⟨x, _, rfl⟩
    exact mul_self_nonneg _
  have hone : ∃ x ∈ xs, x ≠ listMean xs := by
    by_contra hc
    push_neg at hc
    exact hab ((hc a ha).trans (hc b hb).symm)
  obtain ⟨x, hx, hxne⟩ := hone
  have hpos : 0 < (x - listMean xs) * (x - listMean xs) :=
    mul_self_pos.mpr (sub_ne_zero.mpr hxne)
  have hmem : (x - listMean xs) * (x - listMean xs) ∈
      xs.map (fun x => (x - listMean xs) * (x - listMean xs)) :=
    List.mem_map_of_mem _ hx
  have hsum : 0 < (xs.map (fun x => (x - listMean xs) * (x - listMean xs))).sum :=
    lt_of_lt_of_le hpos (List.single_le_sum hnn _ hmem)
  exact div_pos hsum hn

theorem uniformFrame_variance : pixelVariance uniformFrame = 0 := by
  apply listVariance_const _ 7
  · intro x hx
    rcases List.mem_flatten.mp hx with ⟨l, hl, hxl⟩
    rw [List.eq_of_mem_replicate hl] at hxl
    exact List.eq_of_mem_replicate hxl
  · apply List.ne_nil_of_mem (a := (7 : ℚ))
    exact List.mem_flatten.mpr ⟨List.replicate 10 7,
      List.mem_replicate.mpr ⟨by norm_num, rfl⟩, List.mem_replicate.mpr ⟨by norm_num, rfl⟩⟩

theorem uniformFrame_invalid : is_valid_frame (some uniformFrame) = false := by
  simp only [is_valid_frame]
  rw [if_neg (by push_neg; exact ⟨by decide, by decide⟩)]
  rw [if_pos (by rw [uniformFrame_variance]; norm_num)]

/-- Claim C5 (counterexample): the claim asserts that every frame with pixel
standard deviation at least 1 passes the validator, but a frame smaller than
the 10x10 minimum is rejected regardless of its standard deviation: the
2x2 frame `[[0,100],[100,0]]` has variance 2500 (standard deviation 50) and
`is_valid_frame` still returns `false`. -/
theorem is_valid_frame_small_frame_cex :
    (1 : ℚ) ≤ pixelVariance smallContrastFrame ∧
      is_valid_frame (some smallContrastFrame) = false := by
  constructor
  · norm_num [pixelVariance, listVariance, listMean, framePixels, smallContrastFrame]
  · norm_num [is_valid_frame, frameWidth, smallContrastFrame]

/-- Claim C5 (amended): every frame whose pixel variance is below the
validator's epsilon (`std < 0.001`, i.e. variance `< 10^-6`) is rejected;
and every frame of valid dimensions (width and height at least 10) whose
pixel standard deviation is at least 1 (variance at least 1) is accepted. -/
theorem is_valid_frame_std_boundary :
    (∀ fr : Frame, pixelVariance fr < 1 / 1000000 →
      is_valid_frame (some fr) = false) ∧
    (∀ fr : Frame, 10 ≤ frameWidth fr → 10 ≤ frameHeight fr →
      (1 : ℚ) ≤ pixelVariance fr → is_valid_frame (some fr) = true) := by
  constructor
  · intro fr h
    simp only [is_valid_frame]
    by_cases hw : frameWidth fr < 10 ∨ frameHeight fr < 10
    · rw [if_pos hw]
    · rw [if_neg hw, if_pos h]
  · intro fr hw hh hv
    simp only [is_valid_frame]
    rw [if_neg (by push_neg; omega), if_neg (by intro h; linarith)]

/-- Claim C5 (witness): the amended statement applied to concrete frames —
a spike frame of valid size with variance at least 1 is accepted, and a
constant-looking tiny-variance frame is rejected. -/
theorem is_valid_frame_std_boundary_witness :
    is_valid_frame (some (Frame.mk [[(5 : ℚ)]])) = false ∧
      is_valid_frame (some spikeFrame) = true := by
  refine ⟨is_valid_frame_std_boundary.1 (Frame.mk [[(5 : ℚ)]])
    (by norm_num [pixelVariance, listVariance, listMean, framePixels]), ?_⟩
  refine is_valid_frame_std_boundary.2 spikeFrame (by decide) (by decide) ?_
  norm_num [pixelVariance, listVariance, listMean, framePixels, spikeFrame]

/-- Claim C10: for every (nonempty, 8-bit) frame the recorded brightness is
the mean grayscale value divided by 255, hence lies in `[0, 1]`, and the
low-light flag stored alongside it is set exactly when that brightness is
strictly below `0.2`. -/
theorem brightness_range_and_lowlight (fr : Frame) (hne : framePixels fr ≠ [])
    (hpix : ∀ x ∈ framePixels fr, 0 ≤ x ∧ x ≤ 255) :
    0 ≤ (brightnessUpdate fr).1 ∧ (brightnessUpdate fr).1 ≤ 1 ∧
      ((brightnessUpdate fr).2 = true ↔ (brightnessUpdate fr).1 < 1 / 5) := by
  have hn : 0 < (framePixels fr).length := List.length_pos.mpr hne
  have hn' : (0 : ℚ) < (framePixels fr).length := by exact_mod_cast hn
  have hs0 : (0 : ℚ) ≤ (framePixels fr).sum := by
    have := List.card_nsmul_le_sum (framePixels fr) 0 (fun x hx => (hpix x hx).1)
    simpa using this
  have hs1 : (framePixels fr).sum ≤ ((framePixels fr).length : ℚ) * 255 := by
    have := List.sum_le_card_nsmul (framePixels fr) 255 (fun x hx => (hpix x hx).2)
    simpa [nsmul_eq_mul] using this
  have hmean0 : 0 ≤ listMean (framePixels fr) := div_nonneg hs0 (le_of_lt hn')
  have hmean1 : listMean (framePixels fr) ≤ 255 := by
    rw [listMean, div_le_iff₀ hn']
    linarith
  have hb : (brightnessUpdate fr).1 = listMean (framePixels fr) / 255 := rfl
  refine ⟨?_, ?_, ?_⟩
  · rw [hb]
    positivity
  · rw [hb, div_le_one (by norm_num)]
    exact hmean1
  · exact decide_eq_true_iff

/-- Claim C10 (witness): the brightness bookkeeping applied to a concrete
two-pixel frame. -/
theorem brightness_range_and_lowlight_witness :
    0 ≤ (brightnessUpdate (Frame.mk [[(100 : ℚ), 200]])).1 ∧
      (brightnessUpdate (Frame.mk [[(100 : ℚ), 200]])).1 ≤ 1 ∧
      ((brightnessUpdate (Frame.mk [[(100 : ℚ), 200]])).2 = true ↔
        (brightnessUpdate (Frame.mk [[(100 : ℚ), 200]])).1 < 1 / 5) :=
  brightness_range_and_lowlight (Frame.mk [[(100 : ℚ), 200]])
    (by simp [framePixels])
    (by
      intro x hx
      simp only [framePixels, Frame.mk] at hx
      simp only [List.flatten, List.append_nil, List.mem_cons,
        List.not_mem_nil, or_false] at hx
      rcases hx with h | h <;> subst h <;> norm_num)

theorem bestLoop_cons_none (rs : List (Option Frame)) (best : Option Frame) (bs : ℚ) :
    bestLoop (none :: rs) best bs = bestLoop rs best bs := rfl

theorem bestLoop_cons_some (f : Frame) (rs : List (Option Frame)) (best : Option Frame)
    (bs : ℚ) :
    bestLoop (some f :: rs) best bs =
      if is_valid_frame (some f) then
        (if bs < measure_sharpness (some f) then
          bestLoop rs (some f) (measure_sharpness (some f))
        else bestLoop rs best bs)
      else bestLoop rs best bs := rfl

theorem burstCandidates_nil : burstCandidates [] = [] := rfl

theorem burstCandidates_cons_none (rs : List (Option Frame)) :
    burstCandidates (none :: rs) = burstCandidates rs := rfl

theorem burstCandidates_cons_some (f : Frame) (rs : List (Option Frame)) :
    burstCandidates (some f :: rs) =
      if is_valid_frame (some f) then f :: burstCandidates rs else burstCandidates rs := by
  simp only [burstCandidates, List.filterMap_cons, id]
  split <;> simp [List.filter_cons, *]

theorem bestLoop_stays (rs : List (Option Frame)) :
    ∀ (best : Option Frame) (bs : ℚ),
      (∀ f ∈ burstCandidates rs, measure_sharpness (some f) ≤ bs) →
      bestLoop rs best bs = best := by
  induction rs with
  | nil => intro best bs _; rfl
  | cons r rs ih =>
    intro best bs h
    cases r with
    | none =>
      rw [bestLoop_cons_none]
      exact ih best bs (by rwa [burstCandidates_cons_none] at h)
    | some f =>
      rw [burstCandidates_cons_some] at h
      by_cases hv : is_valid_frame (some f)
      · rw [if_pos hv] at h
        have hf : measure_sharpness (some f) ≤ bs := h f (List.mem_cons_self _ _)
        rw [bestLoop_cons_some, if_pos hv, if_neg (not_lt.mpr hf)]
        exact ih best bs (fun g hg => h g (List.mem_cons_of_mem _ hg))
      · rw [if_neg hv] at h
        rw [bestLoop_cons_some, if_neg hv]
        exact ih best bs h

theorem bestLoop_argmax (rs : List (Option Frame)) :
    ∀ (best : Option Frame) (bs : ℚ),
      (∃ f ∈ burstCandidates rs, bs < measure_sharpness (some f)) →
      ∃ b ∈ burstCandidates rs, bestLoop rs best bs = some b ∧
        bs < measure_sharpness (some b) ∧
        ∀ f ∈ burstCandidates rs,
          measure_sharpness (some f) ≤ measure_sharpness (some b) := by
  induction rs with
  | nil =>
    intro best bs h
    rw [burstCandidates_nil] at h
    simp at h
  | cons r rs ih =>
    intro best bs h
    cases r with
    | none =>
      rw [burstCandidates_cons_none] at h ⊢
      rw [bestLoop_cons_none]
      exact ih best bs h
    | some f =>
      by_cases hv : is_valid_frame (some f)
      · rw [burstCandidates_cons_some, if_pos hv] at h ⊢
        by_cases hlt : bs < measure_sharpness (some f)
        · rw [bestLoop_cons_some, if_pos hv, if_pos hlt]
          by_cases hex : ∃ g ∈ burstCandidates rs,
              measure_sharpness (some f) < measure_sharpness (some g)
          · obtain ⟨b, hb, heq, hgt, hmax⟩ := ih (some f) (measure_sharpness (some f)) hex
            refine ⟨b, List.mem_cons_of_mem _ hb, heq, lt_trans hlt hgt, ?_⟩
            intro g hg
            rcases List.mem_cons.mp hg with rfl | hg
            · exact le_of_lt hgt
            · exact hmax g hg
          · push_neg at hex
            refine ⟨f, List.mem_cons_self _ _,
              bestLoop_stays rs (some f) (measure_sharpness (some f)) hex, hlt, ?_⟩
            intro g hg
            rcases List.mem_cons.mp hg with rfl | hg
            · exact le_refl _
            · exact hex g hg
        · rw [bestLoop_cons_some, if_pos hv, if_neg hlt]
          have hex : ∃ g ∈ burstCandidates rs, bs < measure_sharpness (some g) := by
            rcases h with ⟨g, hg, hgt⟩
            rcases List.mem_cons.mp hg with rfl | hg
            · exact absurd hgt hlt
            · exact ⟨g, hg, hgt⟩
          obtain ⟨b, hb, heq, hgt, hmax⟩ := ih best bs hex
          refine ⟨b, List.mem_cons_of_mem _ hb, heq, hgt, ?_⟩
          intro g hg
          rcases List.mem_cons.mp hg with rfl | hg
          · exact le_trans (not_lt.mp hlt) (le_of_lt hgt)
          · exact hmax g hg
      · rw [burstCandidates_cons_some, if_neg hv] at h ⊢
        rw [bestLoop_cons_some, if_neg hv]
        exact ih best bs h

/-- Claim C7 (counterexample): the claim asserts that for every non-empty
list of sampled burst frames the ranking returns a member of that list, but
a burst whose only sampled frame is a uniform solid-colour frame is
non-empty and `capture_best_frame` still returns `none`: frames that fail
`is_valid_frame` are discarded before ranking. -/
theorem capture_best_frame_uniform_cex :
    capture_best_frame [some uniformFrame] = none ∧
      [some uniformFrame] ≠ ([] : List (Option Frame)) := by
  refine ⟨?_, by simp⟩
  rw [capture_best_frame, bestLoop_cons_some, if_neg (by simp [uniformFrame_invalid])]
  rfl

/-- Claim C7 (amended): over the valid sampled frames, whenever some valid
sample has positive sharpness, `capture_best_frame` returns a member of the
valid samples whose Laplacian-variance sharpness is maximal among them; when
every valid sample has sharpness `≤ 0` (in particular when no sample is
valid) it returns `none` and the caller falls back to the current frame. -/
theorem capture_best_frame_argmax (reads : List (Option Frame)) :
    ((∃ f ∈ burstCandidates reads, 0 < measure_sharpness (some f)) →
      ∃ b ∈ burstCandidates reads, capture_best_frame reads = some b ∧
        ∀ f ∈ burstCandidates reads,
          measure_sharpness (some f) ≤ measure_sharpness (some b)) ∧
    ((∀ f ∈ burstCandidates reads, measure_sharpness (some f) ≤ 0) →
      capture_best_frame reads = none) := by
  constructor
  · intro h
    obtain ⟨b, hb, heq, _, hmax⟩ := bestLoop_argmax reads none 0 h
    exact ⟨b, hb, heq, hmax⟩
  · intro h
    exact bestLoop_stays reads none 0 h

/-- Claim C7 (witness): the amended statement applied to a single-sample
burst containing a valid spike frame of positive sharpness. -/
theorem capture_best_frame_argmax_witness :
    (∃ f ∈ burstCandidates [some spikeFrame], 0 < measure_sharpness (some f)) ∧
      ∃ b ∈ burstCandidates [some spikeFrame],
        capture_best_frame [some spikeFrame] = some b ∧
        ∀ f ∈ burstCandidates [some spikeFrame],
          measure_sharpness (some f) ≤ measure_sharpness (some b) := by
  have hvar : (1 : ℚ) ≤ pixelVariance spikeFrame := by
    norm_num [pixelVariance, listVariance, listMean, framePixels, spikeFrame]
  have hv : is_valid_frame (some spikeFrame) = true := by
    simp only [is_valid_frame]
    rw [if_neg (by push_neg; exact ⟨by decide, by decide⟩), if_neg (by intro h; linarith)]
  have hmem : ∀ y x : Nat, y ∈ List.range 10 → x ∈ List.range 10 →
      lapAt spikeFrame 10 10 y x ∈ laplacianValues spikeFrame := by
    intro y x hy hx
    rw [laplacianValues, show frameHeight spikeFrame = 10 from rfl,
      show frameWidth spikeFrame = 10 from rfl]
    exact List.mem_flatten.mpr ⟨_, List.mem_map_of_mem _ hy, List.mem_map_of_mem _ hx⟩
  have h1 : lapAt spikeFrame 10 10 0 0 = 0 := by
    norm_num [lapAt, pixAt, reflectDown, reflectUp, spikeFrame]
  have h2 : lapAt spikeFrame 10 10 4 5 = -1020 := by
    norm_num [lapAt, pixAt, reflectDown, reflectUp, spikeFrame]
  have hs : 0 < measure_sharpness (some spikeFrame) := by
    have hm1 := hmem 0 0 (by decide) (by decide)
    have hm2 := hmem 4 5 (by decide) (by decide)
    rw [h1] at hm1
    rw [h2] at hm2
    show 0 < listVariance (laplacianValues spikeFrame)
    exact listVariance_pos _ 0 (-1020) hm1 hm2 (by norm_num)
  have hex : ∃ f ∈ burstCandidates [some spikeFrame], 0 < measure_sharpness (some f) := by
    rw [burstCandidates_cons_some, if_pos hv, burstCandidates_nil]
    exact ⟨spikeFrame, List.mem_cons_self _ _, hs⟩
  exact ⟨hex, (capture_best_frame_argmax [some spikeFrame]).1 hex⟩

theorem openAtTop_fields (st : LoopState) (ok : Bool) (st1 : LoopState)
    (h : openAtTop st ok = some st1) :
    st1.lastCaptureTime = st.lastCaptureTime ∧
      st1.motionDetectedTime = st.motionDetectedTime ∧
      st1.frameCount = st.frameCount := by
  unfold openAtTop at h
  by_cases hc : st.camOpen
  · rw [if_pos hc] at h
    cases h
    exact ⟨rfl, rfl, rfl⟩
  · rw [if_neg hc] at h
    by_cases ho : ok = true
    · rw [if_pos ho] at h
      cases h
      exact ⟨rfl, rfl, rfl⟩
    · rw [if_neg ho] at h
      cases h

theorem openAtTop_of_openOk (st : LoopState) :
    ∃ st1, openAtTop st true = some st1 := by
  unfold openAtTop
  by_cases hc : st.camOpen
  · exact ⟨st, if_pos hc⟩
  · exact ⟨_, by rw [if_neg hc, if_pos rfl]⟩

theorem validStep_some (cfg : LoopCfg) (st : LoopState) (m : Bool) (t e : ℚ)
    (h : (validStep cfg st m t).2 = some e) :
    e = t ∧ (validStep cfg st m t).1.lastCaptureTime = t ∧
      (validStep cfg st m t).1.motionDetectedTime = none ∧
      (validStep cfg st m t).1.consecutiveErrors = 0 ∧
      m = true ∧
      st.lastCaptureTime + cfg.cooldown ≤ t ∧
      st.motionDetectedTime.getD t + cfg.motionDelay ≤ t := by
  simp only [validStep] at h ⊢
  by_cases hmot : (m && decide (cfg.warmupFrames ≤ st.frameCount + 1)) = true
  · rw [if_pos hmot] at h ⊢
    simp only [Option.isSome_some, Bool.and_true, Option.getD_some] at h ⊢
    by_cases hcap : (m && decide (cfg.warmupFrames ≤ st.frameCount + 1) &&
        decide (st.lastCaptureTime + cfg.cooldown ≤ t) &&
        decide (st.motionDetectedTime.getD t + cfg.motionDelay ≤ t)) = true
    · rw [if_pos hcap] at h ⊢
      have hcap' := hcap
      simp only [Bool.and_eq_true, decide_eq_true_eq] at hcap'
      obtain ⟨⟨⟨hm, _⟩, hcool⟩, hdelay⟩ := hcap'
      simp only [Option.some.injEq] at h
      exact ⟨h.symm, rfl, rfl, rfl, hm, hcool, hdelay⟩
    · rw [if_neg hcap] at h
      exact absurd h (by simp)
  · rw [if_neg hmot] at h
    rw [if_neg (by simp)] at h
    exact absurd h (by simp)

theorem validStep_none (cfg : LoopCfg) (st : LoopState) (m : Bool) (t : ℚ)
    (h : (validStep cfg st m t).2 = none) :
    (validStep cfg st m t).1.lastCaptureTime = st.lastCaptureTime ∧
      (validStep cfg st m t).1.consecutiveErrors = 0 ∧
      (validStep cfg st m t).1.motionDetectedTime =
        (if (m && decide (cfg.warmupFrames ≤ st.frameCount + 1)) = true
         then some (st.motionDetectedTime.getD t) else none) := by
  simp only [validStep] at h ⊢
  by_cases hmot : (m && decide (cfg.warmupFrames ≤ st.frameCount + 1)) = true
  · rw [if_pos hmot] at h ⊢
    simp only [Option.isSome_some, Bool.and_true, Option.getD_some] at h ⊢
    by_cases hcap : (m && decide (cfg.warmupFrames ≤ st.frameCount + 1) &&
        decide (st.lastCaptureTime + cfg.cooldown ≤ t) &&
        decide (st.motionDetectedTime.getD t + cfg.motionDelay ≤ t)) = true
    · rw [if_pos hcap] at h
      exact absurd h (by simp)
    · rw [if_neg hcap] at h ⊢
      exact ⟨rfl, rfl, rfl⟩
  · rw [if_neg hmot] at h ⊢
    rw [if_neg (by simp)] at h ⊢
    exact ⟨rfl, rfl, rfl⟩

theorem errorRecon_spec (cfg : LoopCfg) (s : LoopState) (r : Bool) :
    ((errorRecon cfg s r).2 = true ↔ cfg.maxConsecutiveErrors ≤ s.consecutiveErrors) ∧
      ((errorRecon cfg s r).2 = false → (errorRecon cfg s r).1 = s) ∧
      ((errorRecon cfg s r).2 = true → r = true →
        (errorRecon cfg s r).1.consecutiveErrors = 0) ∧
      (errorRecon cfg s r).1.motionDetectedTime = s.motionDetectedTime ∧
      (errorRecon cfg s r).1.lastCaptureTime = s.lastCaptureTime := by
  unfold errorRecon
  by_cases hth : cfg.maxConsecutiveErrors ≤ s.consecutiveErrors
  · rw [if_pos hth]
    by_cases hr : r = true
    · rw [if_pos hr]
      exact ⟨by simpa using hth, by simp, fun _ _ => rfl, rfl, rfl⟩
    · rw [if_neg hr]
      exact ⟨by simpa using hth, by simp, fun _ hr2 => absurd hr2 hr, rfl, rfl⟩
  · rw [if_neg hth]
    exact ⟨by simpa using hth, fun _ => rfl, by simp [hth], rfl, rfl⟩

theorem loopStep_event_some (cfg : LoopCfg) (st : LoopState) (inp : LoopIn) (t : ℚ)
    (h : (loopStep cfg st inp).event = some t) :
    (loopStep cfg st inp).st.lastCaptureTime = t ∧
      (loopStep cfg st inp).st.motionDetectedTime = none ∧
      st.lastCaptureTime + cfg.cooldown ≤ t := by
  unfold loopStep at h ⊢
  cases hoa : openAtTop st inp.openOk with
  | none =>
    rw [hoa] at h
    dsimp only at h
    exact Option.noConfusion h
  | some st1 =>
    rw [hoa] at h
    obtain ⟨hlct, hmdt, _⟩ := openAtTop_fields st inp.openOk st1 hoa
    cases hres : inp.res with
    | fail =>
      rw [hres] at h
      dsimp only at h
      exact Option.noConfusion h
    | invalid =>
      rw [hres] at h
      dsimp only at h
      exact Option.noConfusion h
    | valid m tt =>
      rw [hres] at h
      dsimp only at h ⊢
      obtain ⟨he, hl, hmd, _, _, hcool, _⟩ := validStep_some cfg st1 m tt t h
      subst he
      rw [hlct] at hcool
      exact ⟨hl, hmd, hcool⟩

theorem loopStep_event_none (cfg : LoopCfg) (st : LoopState) (inp : LoopIn)
    (h : (loopStep cfg st inp).event = none) :
    (loopStep cfg st inp).st.lastCaptureTime = st.lastCaptureTime := by
  unfold loopStep at h ⊢
  cases hoa : openAtTop st inp.openOk with
  | none => dsimp only
  | some st1 =>
    rw [hoa] at h
    obtain ⟨hlct, _, _⟩ := openAtTop_fields st inp.openOk st1 hoa
    cases hres : inp.res with
    | fail =>
      dsimp only
      rw [(errorRecon_spec cfg (countedFail st1) inp.reOpenOk).2.2.2.2]
      rw [show (countedFail st1).lastCaptureTime = st1.lastCaptureTime from rfl]
      exact hlct
    | invalid =>
      dsimp only
      rw [(errorRecon_spec cfg (countedInvalid st1) inp.reOpenOk).2.2.2.2]
      rw [show (countedInvalid st1).lastCaptureTime = st1.lastCaptureTime from rfl]
      exact hlct
    | valid m tt =>
      rw [hres] at h
      dsimp only at h ⊢
      obtain ⟨hl, _, _⟩ := validStep_none cfg st1 m tt h
      rw [hl]
      exact hlct

theorem runLoopIdx_times (cfg : LoopCfg) (h0 : 0 ≤ cfg.cooldown) :
    ∀ (ins : List LoopIn) (k : Nat) (st : LoopState),
      (∀ u ∈ (runLoopIdx cfg k st ins).map Prod.snd,
        st.lastCaptureTime + cfg.cooldown ≤ u) ∧
      List.Pairwise (fun a b => a + cfg.cooldown ≤ b)
        ((runLoopIdx cfg k st ins).map Prod.snd) := by
  intro ins
  induction ins with
  | nil => intro k st; simp [runLoopIdx]
  | cons inp ins ih =>
    intro k st
    cases hev : (loopStep cfg st inp).event with
    | none =>
      have hrw : runLoopIdx cfg k st (inp :: ins) =
          runLoopIdx cfg (k + 1) (loopStep cfg st inp).st ins := by
        rw [runLoopIdx, hev]
      rw [hrw]
      have hl := loopStep_event_none cfg st inp hev
      obtain ⟨ih1, ih2⟩ := ih (k + 1) (loopStep cfg st inp).st
      exact ⟨by rw [← hl]; exact ih1, ih2⟩
    | some t =>
      have hrw : runLoopIdx cfg k st (inp :: ins) =
          (k, t) :: runLoopIdx cfg (k + 1) (loopStep cfg st inp).st ins := by
        rw [runLoopIdx, hev]
      rw [hrw]
      obtain ⟨hl, _, hcool⟩ := loopStep_event_some cfg st inp t hev
      obtain ⟨ih1, ih2⟩ := ih (k + 1) (loopStep cfg st inp).st
      rw [hl] at ih1
      constructor
      · intro u hu
        simp only [List.map_cons, List.mem_cons] at hu
        rcases hu with rfl | hu
        · exact hcool
        · have := ih1 u hu
          linarith
      · simp only [List.map_cons]
        exact List.Pairwise.cons (fun u hu => ih1 u hu) ih2

/-- Claim C1: for any motion pattern (any sequence of per-iteration read
results, motion verdicts and frame times) and any nonnegative cooldown, the
capture events published by the capture loop are spaced at least
`motion_cooldown` apart: a capture fires only when
`current_time - last_capture_time >= cooldown` and every capture sets
`last_capture_time` to its own time, so pairwise timestamp differences are
at least the cooldown. -/
theorem capture_cooldown_spacing (cfg : LoopCfg) (camOpened : Bool) (t0 : ℚ)
    (ins : List LoopIn) (h0 : 0 ≤ cfg.cooldown) :
    List.Pairwise (fun a b => cfg.cooldown ≤ b - a)
      ((runLoopIdx cfg 0 (initState camOpened t0) ins).map Prod.snd) := by
  have h := (runLoopIdx_times cfg h0 ins 0 (initState camOpened t0)).2
  exact h.imp (fun hab => by linarith)

/-- Claim C1 (witness): the cooldown-spacing theorem applied to a concrete
run (cooldown 5, two motion frames at times 10 and 20, both captured). -/
theorem capture_cooldown_spacing_witness :
    (0 : ℚ) ≤ (5 : ℚ) ∧
      List.Pairwise (fun a b => (5 : ℚ) ≤ b - a)
        ((runLoopIdx ⟨0, 5, 0, 50⟩ 0 (initState true 0)
          [⟨true, true, ReadRes.valid true 10⟩,
           ⟨true, true, ReadRes.valid true 20⟩]).map Prod.snd) :=
  ⟨by norm_num,
    capture_cooldown_spacing ⟨0, 5, 0, 50⟩ true 0
      [⟨true, true, ReadRes.valid true 10⟩, ⟨true, true, ReadRes.valid true 20⟩]
      (by norm_num)⟩

theorem validStep_consec (cfg : LoopCfg) (st : LoopState) (m : Bool) (t : ℚ) :
    (validStep cfg st m t).1.consecutiveErrors = 0 := by
  simp only [validStep]
  by_cases hmot : (m && decide (cfg.warmupFrames ≤ st.frameCount + 1)) = true
  · rw [if_pos hmot]
    split <;> rfl
  · rw [if_neg hmot]
    split <;> rfl

theorem loopStep_fail_spec (cfg : LoopCfg) (st : LoopState) (oOk rOk : Bool)
    (h : st.camOpen = true) :
    ((loopStep cfg st ⟨oOk, rOk, ReadRes.fail⟩).reconnected = true ↔
      cfg.maxConsecutiveErrors ≤ st.consecutiveErrors + 1) ∧
    ((loopStep cfg st ⟨oOk, rOk, ReadRes.fail⟩).reconnected = false →
      (loopStep cfg st ⟨oOk, rOk, ReadRes.fail⟩).st.consecutiveErrors =
        st.consecutiveErrors + 1) ∧
    ((loopStep cfg st ⟨oOk, rOk, ReadRes.fail⟩).reconnected = true → rOk = true →
      (loopStep cfg st ⟨oOk, rOk, ReadRes.fail⟩).st.consecutiveErrors = 0) := by
  have hoa : openAtTop st oOk = some st := by
    unfold openAtTop
    rw [if_pos h]
  unfold loopStep
  rw [hoa]
  dsimp only
  obtain ⟨h1, h2, h3, _, _⟩ := errorRecon_spec cfg (countedFail st) rOk
  refine ⟨h1, ?_, h3⟩
  intro hf
  rw [h2 hf]
  rfl

theorem loopStep_invalid_spec (cfg : LoopCfg) (st : LoopState) (oOk rOk : Bool)
    (h : st.camOpen = true) :
    ((loopStep cfg st ⟨oOk, rOk, ReadRes.invalid⟩).reconnected = true ↔
      cfg.maxConsecutiveErrors ≤ st.consecutiveErrors + 1) ∧
    ((loopStep cfg st ⟨oOk, rOk, ReadRes.invalid⟩).reconnected = false →
      (loopStep cfg st ⟨oOk, rOk, ReadRes.invalid⟩).st.consecutiveErrors =
        st.consecutiveErrors + 1) ∧
    ((loopStep cfg st ⟨oOk, rOk, ReadRes.invalid⟩).reconnected = true → rOk = true →
      (loopStep cfg st ⟨oOk, rOk, ReadRes.invalid⟩).st.consecutiveErrors = 0) := by
  have hoa : openAtTop st oOk = some st := by
    unfold openAtTop
    rw [if_pos h]
  unfold loopStep
  rw [hoa]
  dsimp only
  obtain ⟨h1, h2, h3, _, _⟩ := errorRecon_spec cfg (countedInvalid st) rOk
  refine ⟨h1, ?_, h3⟩
  intro hf
  rw [h2 hf]
  rfl

/-- Claim C6: read failures and validator rejections increment the same
`consecutive_errors` counter; the error-branch reconnect (close then reopen)
fires exactly when the incremented counter reaches
`max_consecutive_errors`; and a valid frame resets the counter to 0. -/
theorem consecutive_errors_reconnect (cfg : LoopCfg) (st : LoopState)
    (h : st.camOpen = true) :
    (∀ oOk rOk : Bool,
      ((loopStep cfg st ⟨oOk, rOk, ReadRes.fail⟩).reconnected = true ↔
        cfg.maxConsecutiveErrors ≤ st.consecutiveErrors + 1) ∧
      ((loopStep cfg st ⟨oOk, rOk, ReadRes.fail⟩).reconnected = false →
        (loopStep cfg st ⟨oOk, rOk, ReadRes.fail⟩).st.consecutiveErrors =
          st.consecutiveErrors + 1) ∧
      ((loopStep cfg st ⟨oOk, rOk, ReadRes.fail⟩).reconnected = true → rOk = true →
        (loopStep cfg st ⟨oOk, rOk, ReadRes.fail⟩).st.consecutiveErrors = 0)) ∧
    (∀ oOk rOk : Bool,
      ((loopStep cfg st ⟨oOk, rOk, ReadRes.invalid⟩).reconnected = true ↔
        cfg.maxConsecutiveErrors ≤ st.consecutiveErrors + 1) ∧
      ((loopStep cfg st ⟨oOk, rOk, ReadRes.invalid⟩).reconnected = false →
        (loopStep cfg st ⟨oOk, rOk, ReadRes.invalid⟩).st.consecutiveErrors =
          st.consecutiveErrors + 1) ∧
      ((loopStep cfg st ⟨oOk, rOk, ReadRes.invalid⟩).reconnected = true → rOk = true →
        (loopStep cfg st ⟨oOk, rOk, ReadRes.invalid⟩).st.consecutiveErrors = 0)) ∧
    (∀ (oOk rOk m : Bool) (t : ℚ),
      (loopStep cfg st ⟨oOk, rOk, ReadRes.valid m t⟩).st.consecutiveErrors = 0) := by
  refine ⟨fun oOk rOk => loopStep_fail_spec cfg st oOk rOk h,
    fun oOk rOk => loopStep_invalid_spec cfg st oOk rOk h, ?_⟩
  intro oOk rOk m t
  have hoa : openAtTop st oOk = some st := by
    unfold openAtTop
    rw [if_pos h]
  unfold loopStep
  rw [hoa]
  dsimp only
  exact validStep_consec cfg st m t

/-- Claim C6 (witness): with `max_consecutive_errors = 50` and the counter at
49, one more failed read fires the reconnect, and a valid frame resets the
counter to 0. -/
theorem consecutive_errors_reconnect_witness :
    ((loopStep ⟨0, 5, 0, 50⟩ (LoopState.mk true 0 0 0 0 49 0 none)
        ⟨true, true, ReadRes.fail⟩).reconnected = true ↔ (50 : Nat) ≤ 49 + 1) ∧
      (loopStep ⟨0, 5, 0, 50⟩ (LoopState.mk true 0 0 0 0 49 0 none)
        ⟨true, true, ReadRes.valid true 3⟩).st.consecutiveErrors = 0 :=
  ⟨((consecutive_errors_reconnect ⟨0, 5, 0, 50⟩
      (LoopState.mk true 0 0 0 0 49 0 none) rfl).1 true true).1,
    (consecutive_errors_reconnect ⟨0, 5, 0, 50⟩
      (LoopState.mk true 0 0 0 0 49 0 none) rfl).2.2 true true true 3⟩

theorem runLoopIdx_cons (cfg : LoopCfg) (k : Nat) (st : LoopState) (inp : LoopIn)
    (ins : List LoopIn) :
    runLoopIdx cfg k st (inp :: ins) =
      (match (loopStep cfg st inp).event with
       | some e => (k, e) :: runLoopIdx cfg (k + 1) (loopStep cfg st inp).st ins
       | none => runLoopIdx cfg (k + 1) (loopStep cfg st inp).st ins) := rfl

theorem loopStep_err_mdt (cfg : LoopCfg) (st : LoopState) (rOk : Bool) :
    (loopStep cfg st ⟨true, rOk, ReadRes.fail⟩).st.motionDetectedTime =
      st.motionDetectedTime ∧
    (loopStep cfg st ⟨true, rOk, ReadRes.invalid⟩).st.motionDetectedTime =
      st.motionDetectedTime := by
  obtain ⟨st1, hoa⟩ := openAtTop_of_openOk st
  obtain ⟨_, hmdt, _⟩ := openAtTop_fields st true st1 hoa
  unfold loopStep
  rw [hoa]
  dsimp only
  constructor
  · rw [(errorRecon_spec cfg (countedFail st1) rOk).2.2.2.1]
    exact hmdt
  · rw [(errorRecon_spec cfg (countedInvalid st1) rOk).2.2.2.1]
    exact hmdt

theorem loopStep_valid_char (cfg : LoopCfg) (st : LoopState) (rOk m : Bool) (tt : ℚ) :
    ((loopStep cfg st ⟨true, rOk, ReadRes.valid m tt⟩).event = none →
      (loopStep cfg st ⟨true, rOk, ReadRes.valid m tt⟩).st.motionDetectedTime =
        (if (m && decide (cfg.warmupFrames ≤ st.frameCount + 1)) = true
         then some (st.motionDetectedTime.getD tt) else none)) ∧
    (∀ e, (loopStep cfg st ⟨true, rOk, ReadRes.valid m tt⟩).event = some e →
      e = tt ∧ m = true ∧
      (loopStep cfg st ⟨true, rOk, ReadRes.valid m tt⟩).st.motionDetectedTime = none ∧
      st.motionDetectedTime.getD tt + cfg.motionDelay ≤ tt) := by
  obtain ⟨st1, hoa⟩ := openAtTop_of_openOk st
  obtain ⟨hlct, hmdt, hfc⟩ := openAtTop_fields st true st1 hoa
  unfold loopStep
  rw [hoa]
  dsimp only
  constructor
  · intro hev
    obtain ⟨_, _, hm⟩ := validStep_none cfg st1 m tt hev
    rw [hm, hfc, hmdt]
  · intro e hev
    obtain ⟨he, _, hmdnone, _, hm, _, hdel⟩ := validStep_some cfg st1 m tt e hev
    rw [hmdt] at hdel
    exact ⟨he, hm, hmdnone, hdel⟩

theorem capture_debounce_aux (cfg : LoopCfg) (ins : List LoopIn) :
    ∀ (rest : List LoopIn) (k : Nat) (st : LoopState),
      (∀ l, rest.get? l = ins.get? (k + l)) →
      (∀ inp ∈ rest, inp.openOk = true) →
      (∀ s, st.motionDetectedTime = some s →
        ∃ j, j < k ∧
          (∃ inp, ins.get? j = some inp ∧ inp.res = ReadRes.valid true s) ∧
          (∀ l inp, j ≤ l → l < k → ins.get? l = some inp →
            ∀ m u, inp.res = ReadRes.valid m u → m = true)) →
      ∀ i t, (i, t) ∈ runLoopIdx cfg k st rest →
        ∃ j s, j ≤ i ∧
          (∃ inp, ins.get? j = some inp ∧ inp.res = ReadRes.valid true s) ∧
          s + cfg.motionDelay ≤ t ∧
          (∀ l inp, j ≤ l → l ≤ i → ins.get? l = some inp →
            ∀ m u, inp.res = ReadRes.valid m u → m = true) ∧
          (0 < cfg.motionDelay → s < t) := by
  intro rest
  induction rest with
  | nil =>
    intro k st _ _ _ i t hmem
    simp [runLoopIdx] at hmem
  | cons inp rest ih =>
    intro k st hget hopen hinv i t hmem
    have hk : ins.get? k = some inp := by
      have h0 := hget 0
      simpa using h0.symm
    have hrest_get : ∀ l, rest.get? l = ins.get? (k + 1 + l) := by
      intro l
      have hl := hget (l + 1)
      have harith : k + (l + 1) = k + 1 + l := by omega
      simpa [harith] using hl
    have hopeninp : inp.openOk = true := hopen inp (List.mem_cons_self _ _)
    have hopenrest : ∀ x ∈ rest, x.openOk = true :=
      fun x hx => hopen x (List.mem_cons_of_mem _ hx)
    obtain ⟨oOk, rOk, res⟩ := inp
    simp only at hopeninp
    subst hopeninp
    rw [runLoopIdx_cons] at hmem
    cases res with
    | fail =>
      have hev : (loopStep cfg st ⟨true, rOk, ReadRes.fail⟩).event = none := by
        obtain ⟨st1, hoa⟩ := openAtTop_of_openOk st
        unfold loopStep
        rw [hoa]
      rw [hev] at hmem
      refine ih (k + 1) _ hrest_get hopenrest ?_ i t hmem
      intro s hs
      rw [(loopStep_err_mdt cfg st rOk).1] at hs
      obtain ⟨j, hjk, hstart, hrun⟩ := hinv s hs
      refine ⟨j, by omega, hstart, ?_⟩
      intro l inp2 hjl hlk hl2 m u hres
      rcases Nat.lt_or_ge l k with hlt | hge
      · exact hrun l inp2 hjl hlt hl2 m u hres
      · have hlk' : l = k := by omega
        subst hlk'
        rw [hk] at hl2
        cases hl2
        cases hres
    | invalid =>
      have hev : (loopStep cfg st ⟨true, rOk, ReadRes.invalid⟩).event = none := by
        obtain ⟨st1, hoa⟩ := openAtTop_of_openOk st
        unfold loopStep
        rw [hoa]
      rw [hev] at hmem
      refine ih (k + 1) _ hrest_get hopenrest ?_ i t hmem
      intro s hs
      rw [(loopStep_err_mdt cfg st rOk).2] at hs
      obtain ⟨j, hjk, hstart, hrun⟩ := hinv s hs
      refine ⟨j, by omega, hstart, ?_⟩
      intro l inp2 hjl hlk hl2 m u hres
      rcases Nat.lt_or_ge l k with hlt | hge
      · exact hrun l inp2 hjl hlt hl2 m u hres
      · have hlk' : l = k := by omega
        subst hlk'
        rw [hk] at hl2
        cases hl2
        cases hres
    | valid m tt =>
      cases hev : (loopStep cfg st ⟨true, rOk, ReadRes.valid m tt⟩).event with
      | none =>
        rw [hev] at hmem
        refine ih (k + 1) _ hrest_get hopenrest ?_ i t hmem
        intro s hs
        rw [(loopStep_valid_char cfg st rOk m tt).1 hev] at hs
        by_cases hmot : (m && decide (cfg.warmupFrames ≤ st.frameCount + 1)) = true
        · rw [if_pos hmot] at hs
          have hm : m = true := (Bool.and_eq_true .. ▸ hmot).1
          cases hsd : st.motionDetectedTime with
          | some s0 =>
            rw [hsd] at hs
            simp only [Option.getD_some, Option.some.injEq] at hs
            subst hs
            obtain ⟨j, hjk, hstart, hrun⟩ := hinv s0 hsd
            refine ⟨j, by omega, hstart, ?_⟩
            intro l inp2 hjl hlk hl2 m2 u hres
            rcases Nat.lt_or_ge l k with hlt | hge
            · exact hrun l inp2 hjl hlt hl2 m2 u hres
            · have hlk' : l = k := by omega
              subst hlk'
              rw [hk] at hl2
              cases hl2
              cases hres
              exact hm
          | none =>
            rw [hsd] at hs
            simp only [Option.getD_none, Option.some.injEq] at hs
            subst hs
            refine ⟨k, by omega, ⟨⟨true, rOk, ReadRes.valid m tt⟩, hk, by rw [hm]⟩, ?_⟩
            intro l inp2 hjl hlk hl2 m2 u hres
            have hlk' : l = k := by omega
            subst hlk'
            rw [hk] at hl2
            cases hl2
            cases hres
            exact hm
        · rw [if_neg hmot] at hs
          cases hs
      | some e =>
        rw [hev] at hmem
        obtain ⟨he, hm, hmdnone, hdel⟩ := (loopStep_valid_char cfg st rOk m tt).2 e hev
        subst he
        rcases List.mem_cons.mp hmem with hhd | htl
        · have hik : i = k ∧ t = e := by
            constructor
            · exact congrArg Prod.fst hhd
            · exact congrArg Prod.snd hhd
          obtain ⟨hik1, hik2⟩ := hik
          subst hik1
          subst hik2
          cases hsd : st.motionDetectedTime with
          | some s0 =>
            rw [hsd] at hdel
            simp only [Option.getD_some] at hdel
            obtain ⟨j, hjk, hstart, hrun⟩ := hinv s0 hsd
            refine ⟨j, s0, by omega, hstart, hdel, ?_, fun hpos => by linarith⟩
            intro l inp2 hjl hli hl2 m2 u hres
            rcases Nat.lt_or_ge l i with hlt | hge
            · exact hrun l inp2 hjl hlt hl2 m2 u hres
            · have hlk' : l = i := by omega
              subst hlk'
              rw [hk] at hl2
              cases hl2
              cases hres
              exact hm
          | none =>
            rw [hsd] at hdel
            simp only [Option.getD_none] at hdel
            refine ⟨i, t, le_refl i,
              ⟨⟨true, rOk, ReadRes.valid m t⟩, hk, by rw [hm]⟩, hdel, ?_,
              fun hpos => absurd hdel (by push_neg; linarith)⟩
            intro l inp2 hjl hli hl2 m2 u hres
            have hlk' : l = i := by omega
            subst hlk'
            rw [hk] at hl2
            cases hl2
            cases hres
            exact hm
        · refine ih (k + 1) _ hrest_get hopenrest ?_ i t htl
          intro s hs
          rw [hmdnone] at hs
          cases hs

/-- Claim C2 (counterexample): the claim asserts the loop never captures at
the first frame of motion, but with `motion_delay = 0` (a permitted
configuration: `MOTION_DELAY` is env-sourced) the very first motion frame
already satisfies `current_time - motion_detected_time >= motion_delay`,
since `motion_detected_time` is set to `current_time` in the same iteration:
with warmup 0, cooldown 0 and delay 0 the single motion frame at time 7 is
captured at iteration 0, the first frame of motion. -/
theorem capture_debounce_first_frame_cex :
    runLoopIdx ⟨0, 0, 0, 50⟩ 0 (initState true 0)
      [⟨true, true, ReadRes.valid true 7⟩] = [(0, 7)] := by
  norm_num [runLoopIdx, loopStep, openAtTop, validStep, initState]

/-- Claim C2 (amended): every capture published at iteration `i` with time
`t` has a debounce start `j ≤ i`: a validated frame at index `j` reporting
motion at time `s` with `s + motion_delay ≤ t`, such that every validated
frame between `j` and the capture reported motion (so interrupted motion
restarts the wait); whenever `motion_delay > 0` the motion start is strictly
earlier than the capture (`s < t`), i.e. the loop never captures at the
first frame of motion.  Moreover a validated frame without motion always
clears the debounce clock `motion_detected_time`.  (Hypothesis: every
iteration's loop-top `open_camera` outcome is success, so no iteration is
skipped with the camera closed.) -/
theorem capture_debounce (cfg : LoopCfg) (camOpened : Bool) (t0 : ℚ)
    (ins : List LoopIn) (hopen : ∀ inp ∈ ins, inp.openOk = true) :
    (∀ i t, (i, t) ∈ runLoopIdx cfg 0 (initState camOpened t0) ins →
      ∃ j s, j ≤ i ∧
        (∃ inp, ins.get? j = some inp ∧ inp.res = ReadRes.valid true s) ∧
        s + cfg.motionDelay ≤ t ∧
        (∀ l inp, j ≤ l → l ≤ i → ins.get? l = some inp →
          ∀ m u, inp.res = ReadRes.valid m u → m = true) ∧
        (0 < cfg.motionDelay → s < t)) ∧
    (∀ (st : LoopState) (t : ℚ),
      (validStep cfg st false t).1.motionDetectedTime = none) := by
  constructor
  · intro i t hmem
    refine capture_debounce_aux cfg ins ins 0 (initState camOpened t0)
      (fun l => by simp) hopen ?_ i t hmem
    intro s hs
    cases hs
  · intro st t
    simp only [validStep]
    rw [if_neg (by simp)]
    simp

/-- Claim C2 (witness): the amended statement applied to a concrete run with
`motion_delay = 3/2`: motion starts at time 0, and the frame at time 2 (the
second motion frame) is the one captured. -/
theorem capture_debounce_witness :
    (∀ inp ∈ ([⟨true, true, ReadRes.valid true 0⟩,
        ⟨true, true, ReadRes.valid true 2⟩] : List LoopIn), inp.openOk = true) ∧
      ((1, (2 : ℚ)) ∈ runLoopIdx ⟨0, 0, 3 / 2, 50⟩ 0 (initState true 0)
        [⟨true, true, ReadRes.valid true 0⟩, ⟨true, true, ReadRes.valid true 2⟩]) ∧
      ∃ j s, j ≤ 1 ∧
        (∃ inp, ([⟨true, true, ReadRes.valid true 0⟩,
            ⟨true, true, ReadRes.valid true 2⟩] : List LoopIn).get? j = some inp ∧
          inp.res = ReadRes.valid true s) ∧
        s + (⟨0, 0, 3 / 2, 50⟩ : LoopCfg).motionDelay ≤ 2 ∧
        (∀ l inp, j ≤ l → l ≤ 1 →
          ([⟨true, true, ReadRes.valid true 0⟩,
            ⟨true, true, ReadRes.valid true 2⟩] : List LoopIn).get? l = some inp →
          ∀ m u, inp.res = ReadRes.valid m u → m = true) ∧
        (0 < (⟨0, 0, 3 / 2, 50⟩ : LoopCfg).motionDelay → s < 2) := by
  have hopen : ∀ inp ∈ ([⟨true, true, ReadRes.valid true 0⟩,
      ⟨true, true, ReadRes.valid true 2⟩] : List LoopIn), inp.openOk = true := by
    intro inp h
    rcases List.mem_cons.mp h with rfl | h
    · rfl
    · rcases List.mem_cons.mp h with rfl | h
      · rfl
      · cases h
  have hmem : (1, (2 : ℚ)) ∈ runLoopIdx ⟨0, 0, 3 / 2, 50⟩ 0 (initState true 0)
      [⟨true, true, ReadRes.valid true 0⟩, ⟨true, true, ReadRes.valid true 2⟩] := by
    norm_num [runLoopIdx, loopStep, openAtTop, validStep, initState]
  exact ⟨hopen, hmem,
    (capture_debounce ⟨0, 0, 3 / 2, 50⟩ true 0
      [⟨true, true, ReadRes.valid true 0⟩, ⟨true, true, ReadRes.valid true 2⟩]
      hopen).1 1 2 hmem⟩

/-- Claim C3 (code-bug evaluation): for a capture whose video clip was
successfully saved, `run` puts the clip path into the metadata (with the
stated intent of including it in the Redis message), but
`publish_to_redis` builds the message from only the four fixed keys, so the
published message carries no `video_path`; the other envelope fields are
populated as specified. -/
theorem publish_drops_video_path :
    (captureMetadata "2025-10-12T00:00:00+00:00" "usb_device_0"
        (some "2025-10/12/20251012_000000_000.mp4")).videoPath =
      some "2025-10/12/20251012_000000_000.mp4" ∧
    (publish_to_redis "2025-10/12/20251012_000000_000.jpg"
        (captureMetadata "2025-10-12T00:00:00+00:00" "usb_device_0"
          (some "2025-10/12/20251012_000000_000.mp4"))).videoPath = none ∧
    (publish_to_redis "2025-10/12/20251012_000000_000.jpg"
        (captureMetadata "2025-10-12T00:00:00+00:00" "usb_device_0"
          (some "2025-10/12/20251012_000000_000.mp4"))).imagePath =
      "2025-10/12/20251012_000000_000.jpg" ∧
    (publish_to_redis "2025-10/12/20251012_000000_000.jpg"
        (captureMetadata "2025-10-12T00:00:00+00:00" "usb_device_0"
          (some "2025-10/12/20251012_000000_000.mp4"))).timestamp =
      "2025-10-12T00:00:00+00:00" ∧
    (publish_to_redis "2025-10/12/20251012_000000_000.jpg"
        (captureMetadata "2025-10-12T00:00:00+00:00" "usb_device_0"
          (some "2025-10/12/20251012_000000_000.mp4"))).motionScore = 1 ∧
    (publish_to_redis "2025-10/12/20251012_000000_000.jpg"
        (captureMetadata "2025-10-12T00:00:00+00:00" "usb_device_0"
          (some "2025-10/12/20251012_000000_000.mp4"))).source = "usb_device_0" :=
  ⟨rfl, rfl, rfl, rfl, rfl, rfl⟩

/-- Claim C4 (code-bug evaluation): with the image write failing
(`cv2.imwrite` returning false — its result is never checked), the capture
block still publishes a queue message pointing at the path of the
never-written image; and with only the clip write failing (clip result
`None`) the image-only message is also published, as the claim's second
half states. -/
theorem image_write_failure_still_publishes :
    (∃ msg, captureAndPublish false none "2025-10/12/a.jpg" "ts0" "usb_device_0" =
        some msg ∧ msg.imagePath = "2025-10/12/a.jpg") ∧
    (captureAndPublish true none "2025-10/12/a.jpg" "ts0" "usb_device_0").isSome =
      true :=
  ⟨⟨publish_to_redis "2025-10/12/a.jpg"
      (captureMetadata "ts0" "usb_device_0" none), rfl, rfl⟩, rfl⟩

/-- Claim C8 (counterexample): the claim asserts that for every consumed
message whose `image_path` resolves to an existing image exactly one of the
two actions happens, but when inference raises an exception
(`detect_objects` returns `None`) the consumer performs neither: the
message is dropped and the image is retained. -/
theorem process_image_inference_error_cex :
    process_image ⟨14, 0, -1, 1 / 2, 1 / 2, 1 / 2⟩ true none = DetAction.noAction :=
  rfl

theorem detCategory_eq_none_iff (cfg : DetCfg) (preds : List YoloPred) :
    detCategory cfg preds = "none" ↔
      isBird cfg preds = false ∧ isHuman cfg preds = false ∧
        isSquirrel cfg preds = false := by
  unfold detCategory
  cases hb : isBird cfg preds <;> cases hh : isHuman cfg preds <;>
    cases hs : isSquirrel cfg preds <;> simp

/-- Claim C8 (amended): when the image exists and inference completes
without error, the consumer performs exactly one of the two actions: it
publishes an enriched detection record iff some predicted box belongs to a
target class with confidence at or above that class's threshold, it deletes
the image iff no box does, and it never does neither. -/
theorem process_image_exactly_one (cfg : DetCfg) (preds : List YoloPred) :
    ((∃ p ∈ preds, (predTarget cfg p).isSome = true) →
      ∃ r, process_image cfg true (some preds) = DetAction.publishDetection r) ∧
    ((∀ p ∈ preds, predTarget cfg p = none) →
      process_image cfg true (some preds) = DetAction.deleteImage) ∧
    process_image cfg true (some preds) ≠ DetAction.noAction := by
  have hb : isBird cfg preds = true ↔
      ∃ p ∈ preds, predTarget cfg p = some TargetClass.bird := by
    simp [isBird, List.any_eq_true]
  have hh : isHuman cfg preds = true ↔
      ∃ p ∈ preds, predTarget cfg p = some TargetClass.human := by
    simp [isHuman, List.any_eq_true]
  have hs : isSquirrel cfg preds = true ↔
      ∃ p ∈ preds, predTarget cfg p = some TargetClass.squirrel := by
    simp [isSquirrel, List.any_eq_true]
  refine ⟨?_, ?_, ?_⟩
  · rintro ⟨p, hp, hps⟩
    rcases Option.isSome_iff_exists.mp hps with ⟨c, hc⟩
    have hcat : ¬ detCategory cfg preds = "none" := by
      rw [detCategory_eq_none_iff]
      rintro ⟨hb0, hh0, hs0⟩
      cases c with
      | bird => rw [hb.mpr ⟨p, hp, hc⟩] at hb0; cases hb0
      | human => rw [hh.mpr ⟨p, hp, hc⟩] at hh0; cases hh0
      | squirrel => rw [hs.mpr ⟨p, hp, hc⟩] at hs0; cases hs0
    exact ⟨⟨isBird cfg preds, isHuman cfg preds, isSquirrel cfg preds,
      detCategory cfg preds⟩, by simp [process_image, detect_objects, hcat]⟩
  · intro hall
    have hb0 : isBird cfg preds = false := by
      rw [Bool.eq_false_iff]
      intro hbt
      obtain ⟨p, hp, hc⟩ := hb.mp hbt
      rw [hall p hp] at hc
      cases hc
    have hh0 : isHuman cfg preds = false := by
      rw [Bool.eq_false_iff]
      intro hht
      obtain ⟨p, hp, hc⟩ := hh.mp hht
      rw [hall p hp] at hc
      cases hc
    have hs0 : isSquirrel cfg preds = false := by
      rw [Bool.eq_false_iff]
      intro hst
      obtain ⟨p, hp, hc⟩ := hs.mp hst
      rw [hall p hp] at hc
      cases hc
    have hcat : detCategory cfg preds = "none" :=
      (detCategory_eq_none_iff cfg preds).mpr ⟨hb0, hh0, hs0⟩
    simp [process_image, detect_objects, hcat]
  · by_cases hcat : detCategory cfg preds = "none"
    · simp [process_image, detect_objects, hcat]
    · simp [process_image, detect_objects, hcat]

/-- Claim C8 (witness): a COCO-style configuration with one bird box of
confidence 0.9 above its 0.5 threshold leads to a published detection. -/
theorem process_image_exactly_one_witness :
    (∃ p ∈ [YoloPred.mk 14 (9 / 10)],
      (predTarget ⟨14, 0, -1, 1 / 2, 1 / 2, 1 / 2⟩ p).isSome = true) ∧
      ∃ r, process_image ⟨14, 0, -1, 1 / 2, 1 / 2, 1 / 2⟩ true
        (some [YoloPred.mk 14 (9 / 10)]) = DetAction.publishDetection r := by
  have hex : ∃ p ∈ [YoloPred.mk 14 (9 / 10)],
      (predTarget ⟨14, 0, -1, 1 / 2, 1 / 2, 1 / 2⟩ p).isSome = true := by
    refine ⟨YoloPred.mk 14 (9 / 10), List.mem_cons_self _ _, ?_⟩
    norm_num [predTarget]
  exact ⟨hex,
    (process_image_exactly_one ⟨14, 0, -1, 1 / 2, 1 / 2, 1 / 2⟩
      [YoloPred.mk 14 (9 / 10)]).1 hex⟩

theorem int_toNat_lit (n : Nat) [n.AtLeastTwo] :
    (OfNat.ofNat n : ℤ).toNat = OfNat.ofNat n := rfl

theorem bufferAppend_length (maxN : Nat) (buf : List (ℚ × Frame)) (e : ℚ × Frame)
    (h : buf.length ≤ maxN) : (bufferAppend maxN buf e).length ≤ maxN := by
  unfold bufferAppend
  have h1 : (buf ++ [e]).length = buf.length + 1 := by simp
  by_cases hlen : maxN < (buf ++ [e]).length
  · rw [if_pos hlen]
    rw [List.length_tail, h1]
    omega
  · rw [if_neg hlen]
    rw [h1] at hlen
    omega

theorem bufferFold_length (maxN : Nat) :
    ∀ (entries : List (ℚ × Frame)) (buf : List (ℚ × Frame)), buf.length ≤ maxN →
      (entries.foldl (bufferAppend maxN) buf).length ≤ maxN := by
  intro entries
  induction entries with
  | nil =>
    intro buf h
    simpa using h
  | cons e es ih =>
    intro buf h
    rw [List.foldl_cons]
    exact ih _ (bufferAppend_length maxN buf e h)

/-- Claim C9: the clip-buffer snapshot and capacity behaviour of
`save_video_clip` and the buffer maintenance in `run`: (1) when some
buffered entry lies in the clip window, the selection returns exactly the
buffered entries with capture time in `[now - duration, now]` (all buffered
times are at most `now`); (2) when the buffer is non-empty but no entry
lies in the window, it falls back to the most recent
`int(fps x duration)` entries; (3) a buffer grown from empty by
`bufferAppend` never exceeds `int(duration x fps) + 10` entries; (4) an
append at or above capacity evicts the oldest entry. -/
theorem clip_buffer_spec :
    (∀ (dur fps now : ℚ) (buf : List (ℚ × Frame)),
      (∀ e ∈ buf, e.1 ≤ now) → (∃ e ∈ buf, now - dur ≤ e.1) →
      selectClipFrames dur (clipFallbackN fps dur) now buf =
        some (buf.filter (fun e => decide (now - dur ≤ e.1 ∧ e.1 ≤ now)))) ∧
    (∀ (dur fps now : ℚ) (buf : List (ℚ × Frame)),
      buf ≠ [] → (∀ e ∈ buf, e.1 < now - dur) → 0 < clipFallbackN fps dur →
      selectClipFrames dur (clipFallbackN fps dur) now buf =
        some (buf.drop (buf.length - clipFallbackN fps dur))) ∧
    (∀ (dur fps : ℚ) (entries : List (ℚ × Frame)),
      (entries.foldl (bufferAppend (maxBufferFrames dur fps)) []).length ≤
        maxBufferFrames dur fps) ∧
    (∀ (maxN : Nat) (buf : List (ℚ × Frame)) (e : ℚ × Frame),
      buf ≠ [] → maxN ≤ buf.length → bufferAppend maxN buf e = buf.tail ++ [e]) := by
  refine ⟨?_, ?_, ?_, ?_⟩
  · intro dur fps now buf hle hex
    obtain ⟨e0, he0, he0c⟩ := hex
    simp only [selectClipFrames]
    rw [if_neg (List.ne_nil_of_mem he0)]
    have hne2 : buf.filter (fun e => decide (now - dur ≤ e.1)) ≠ [] := by
      intro hnil
      have hmem : e0 ∈ buf.filter (fun e => decide (now - dur ≤ e.1)) :=
        List.mem_filter.mpr ⟨he0, by simpa using he0c⟩
      rw [hnil] at hmem
      cases hmem
    rw [if_neg hne2, if_neg hne2]
    congr 1
    refine List.filter_congr ?_
    intro e he
    simp only [decide_eq_decide]
    exact ⟨fun h => ⟨h, hle e he⟩, fun h => h.1⟩
  · intro dur fps now buf hne hall hpos
    simp only [selectClipFrames]
    rw [if_neg hne]
    have hfe : buf.filter (fun e => decide (now - dur ≤ e.1)) = [] := by
      rw [List.filter_eq_nil_iff]
      intro e he
      simp only [decide_eq_true_eq]
      exact not_le.mpr (hall e he)
    rw [if_pos hfe]
    rw [if_neg (by omega : ¬ clipFallbackN fps dur = 0)]
    have hdne : buf.drop (buf.length - clipFallbackN fps dur) ≠ [] := by
      rw [← List.length_pos, List.length_drop]
      have hbl := List.length_pos.mpr hne
      omega
    rw [if_neg hdne]
  · intro dur fps entries
    exact bufferFold_length (maxBufferFrames dur fps) entries [] (by simp)
  · intro maxN buf e hne hcap
    unfold bufferAppend
    have hlen : maxN < (buf ++ [e]).length := by
      simp only [List.length_append, List.length_cons, List.length_nil]
      omega
    rw [if_pos hlen]
    cases buf with
    | nil => exact absurd rfl hne
    | cons x xs => simp

/-- Claim C9 (witness): the snapshot and capacity behaviour on concrete
buffers (duration 3, fps 15, `now = 10`): a buffer with entries at times 2
and 8 snapshots to the single in-window entry at time 8; a buffer whose
only entry (time 2) is older than the window falls back to the slice of
the last 45 entries; and an append to a 2-entry buffer at capacity 2
evicts the oldest entry. -/
theorem clip_buffer_spec_witness :
    (selectClipFrames 3 (clipFallbackN 15 3) 10
        [(2, Frame.mk []), (8, Frame.mk [])] =
      some ([(2, Frame.mk []), (8, Frame.mk [])].filter
        (fun e => decide ((10 : ℚ) - 3 ≤ e.1 ∧ e.1 ≤ 10)))) ∧
    (selectClipFrames 3 (clipFallbackN 15 3) 10 [((2 : ℚ), Frame.mk [])] =
      some ([((2 : ℚ), Frame.mk [])].drop (1 - clipFallbackN 15 3))) ∧
    (bufferAppend 2 [((1 : ℚ), Frame.mk []), ((2 : ℚ), Frame.mk [])]
        (3, Frame.mk []) =
      [((1 : ℚ), Frame.mk []), ((2 : ℚ), Frame.mk [])].tail ++ [(3, Frame.mk [])]) := by
  have hfb : 0 < clipFallbackN 15 3 := by
    norm_num [clipFallbackN, Rat.floor_def', Rat.num_ofNat, Rat.den_ofNat, int_toNat_lit]
  refine ⟨?_, ?_, ?_⟩
  · refine clip_buffer_spec.1 3 15 10 [(2, Frame.mk []), (8, Frame.mk [])] ?_ ?_
    · intro e he
      rcases List.mem_cons.mp he with rfl | he
      · norm_num
      · rcases List.mem_cons.mp he with rfl | he
        · norm_num
        · cases he
    · exact ⟨(8, Frame.mk []),
        List.mem_cons_of_mem _ (List.mem_cons_self _ _), by norm_num⟩
  · have h := clip_buffer_spec.2.1 3 15 10 [((2 : ℚ), Frame.mk [])]
      (by simp) ?_ hfb
    · simpa using h
    · intro e he
      rcases List.mem_cons.mp he with rfl | he
      · norm_num
      · cases he
  · exact clip_buffer_spec.2.2.2 2
      [((1 : ℚ), Frame.mk []), ((2 : ℚ), Frame.mk [])] (3, Frame.mk [])
      (by simp) (by simp)
